import Mathlib

/-!
Verification development for the budgetmanager extraction/classification core:
a shallow embedding of `CategorizationService.categorize`
(src/services/categorization_service.py), `NotificationParser.parse_sms`
(src/services/notification_parser.py) and `OCRService.parse_transactions`
(src/services/ocr_service.py), together with theorems about them.

Python strings are modelled as `List Char`; floats produced by `float()` on
decimal strings are modelled as exact rationals; `datetime.now()` is made an
explicit `PyDate` parameter; Python exceptions that escape a function are
modelled with `Except String`.  Case mapping (`str.lower`/`str.upper`) is
modelled by a finite table covering ASCII and the accented letters that occur
in the source's patterns and keywords.
-/

/-- Case-mapping table (lower, upper) for ASCII letters and the accented
letters appearing in the repository's patterns and keywords. -/
def caseTable : List (Char × Char) :=
  [('a', 'A'), ('b', 'B'), ('c', 'C'), ('d', 'D'), ('e', 'E'), ('f', 'F'),
   ('g', 'G'), ('h', 'H'), ('i', 'I'), ('j', 'J'), ('k', 'K'), ('l', 'L'),
   ('m', 'M'), ('n', 'N'), ('o', 'O'), ('p', 'P'), ('q', 'Q'), ('r', 'R'),
   ('s', 'S'), ('t', 'T'), ('u', 'U'), ('v', 'V'), ('w', 'W'), ('x', 'X'),
   ('y', 'Y'), ('z', 'Z'),
   ('é', 'É'), ('è', 'È'), ('ê', 'Ê'), ('ë', 'Ë'), ('à', 'À'), ('â', 'Â'),
   ('ç', 'Ç'), ('î', 'Î'), ('ï', 'Ï'), ('ô', 'Ô'), ('û', 'Û'), ('ù', 'Ù'),
   ('ü', 'Ü'), ('œ', 'Œ')]

/-- Model of Python `str.upper` on one character. -/
def pyUpperChar (c : Char) : Char :=
  match caseTable.find? (fun p => p.1 == c) with
  | some p => p.2
  | none => c

/-- Model of Python `str.lower` on one character. -/
def pyLowerChar (c : Char) : Char :=
  match caseTable.find? (fun p => p.2 == c) with
  | some p => p.1
  | none => c

/-- A character counts as lowercase when the case table maps it to a
different uppercase character (ASCII a-z and the modelled accents). -/
def isLowerModeled (c : Char) : Bool :=
  caseTable.any (fun p => p.1 == c)

/-- Model of Python `str.isspace` / the regex class `\s` (the whitespace
characters relevant here, including the non-breaking space). -/
def pyIsSpace (c : Char) : Bool :=
  c == ' ' || c == '\t' || c == '\n' || c == '\r' ||
  c == '\u000B' || c == '\u000C' || c == ' '

/-- Word characters for the regex `\b` boundary (Python `\w`): alphanumerics,
underscore, and the modelled accented letters. -/
def isWordChar (c : Char) : Bool :=
  c.isAlphanum || c == '_' || caseTable.any (fun p => p.1 == c || p.2 == c)

/-- Python `str.strip()` on a character list. -/
def pyStripL (l : List Char) : List Char :=
  ((l.dropWhile pyIsSpace).reverse.dropWhile pyIsSpace).reverse

/-- Python `str.strip(c)` for a single stripped character. -/
def stripCharL (c : Char) (l : List Char) : List Char :=
  ((l.dropWhile (· == c)).reverse.dropWhile (· == c)).reverse

/-- Python `haystack.replace(needle, '')` (remove all occurrences,
left to right), with fuel equal to the haystack length. -/
def removeAllAux (needle : List Char) : Nat → List Char → List Char
  | 0, l => l
  | _ + 1, [] => []
  | f + 1, c :: t =>
    if needle ≠ [] ∧ needle.isPrefixOf (c :: t) then
      removeAllAux needle f ((c :: t).drop needle.length)
    else
      c :: removeAllAux needle f t

/-- Remove all occurrences of `needle` from `hay` (Python `replace(x, '')`). -/
def removeAll (hay needle : List Char) : List Char :=
  removeAllAux needle hay.length hay

/-- `re.sub(r'\s+', ' ', s)`: collapse each whitespace run to one space. -/
def collapseWsAux : Bool → List Char → List Char
  | _, [] => []
  | prevSp, c :: t =>
    if pyIsSpace c then
      if prevSp then collapseWsAux true t else ' ' :: collapseWsAux true t
    else c :: collapseWsAux false t

/-- Collapse whitespace runs in a character list. -/
def collapseWs (l : List Char) : List Char := collapseWsAux false l

/-- Split a character list on a separator character (Python `str.split(c)`). -/
def splitChAux (d : Char) : List Char → List Char → List (List Char)
  | acc, [] => [acc.reverse]
  | acc, c :: t =>
    if c == d then acc.reverse :: splitChAux d [] t
    else splitChAux d (c :: acc) t

/-- Python `s.split(c)` for a single-character separator. -/
def splitCh (d : Char) (l : List Char) : List (List Char) := splitChAux d [] l

/-- Python substring test `needle in hay`. -/
def isSubL (needle hay : List Char) : Bool :=
  (List.range (hay.length + 1)).any (fun i => needle.isPrefixOf (hay.drop i))

/-- Python `str.zfill(n)` for the nonnegative strings used here. -/
def zfillL (n : Nat) (l : List Char) : List Char :=
  if n ≤ l.length then l else List.replicate (n - l.length) '0' ++ l

/-- Numeric value of a digit string (used to model `int(...)`). -/
def natOfDigits (l : List Char) : Nat :=
  l.foldl (fun a c => a * 10 + (c.toNat - '0'.toNat)) 0

/-- Model of Python `float()` restricted to the strings producible here
(optional sign, digits and at most one decimal point); the result is the
exact decimal value, `none` models `ValueError`. -/
def pyFloat (l : List Char) : Option ℚ :=
  let (sign, cs) : Int × List Char :=
    match l with
    | '+' :: t => (1, t)
    | '-' :: t => (-1, t)
    | t => (1, t)
  if cs.all (fun c => c.isDigit || c == '.') then
    match splitCh '.' cs with
    | [ip] =>
      if ip.isEmpty then none
      else some (mkRat (sign * Int.ofNat (natOfDigits ip)) 1)
    | [ip, fp] =>
      if ip.isEmpty ∧ fp.isEmpty then none
      else
        some (mkRat
          (sign * Int.ofNat (natOfDigits ip * 10 ^ fp.length + natOfDigits fp))
          (10 ^ fp.length))
    | _ => none
  else none

/-- Python `abs()` on a rational. -/
def pyAbs (a : ℚ) : ℚ := if a < 0 then -a else a

/-- The amount threshold `0.01` of the statement parser. -/
def amountFloor : ℚ := mkRat 1 100

/-! ### A backtracking regular-expression engine

Backtracking matcher with the Perl/Python semantics used by `re`:
ordered alternation, greedy (`starG`) and lazy (`starL`) repetition,
capturing groups recorded as spans of the input, word boundaries and an
end anchor.  `fuel` bounds the recursion depth. -/

/-- Regular-expression syntax (enough for the repository's patterns). -/
inductive RE : Type where
  | eps : RE
  | cls : (Char → Bool) → RE
  | seq : RE → RE → RE
  | alt : RE → RE → RE
  | starG : RE → RE
  | starL : RE → RE
  | grp : Nat → RE → RE
  | wb : RE
  | eos : RE

/-- Captured group spans: (group index, start, stop). -/
abbrev Caps := List (Nat × Nat × Nat)

/-- Run regex `r` on `inp` at position `pos` with continuation `k`,
Perl-style backtracking. -/
def reRun (inp : List Char) :
    Nat → RE → Nat → Caps → (Nat → Caps → Option (Nat × Caps)) → Option (Nat × Caps)
  | 0, _, _, _, _ => none
  | fuel + 1, r, pos, caps, k =>
    match r with
    | .eps => k pos caps
    | .cls p =>
      match inp.get? pos with
      | some c => if p c then k (pos + 1) caps else none
      | none => none
    | .seq a b => reRun inp fuel a pos caps (fun p2 c2 => reRun inp fuel b p2 c2 k)
    | .alt a b =>
      match reRun inp fuel a pos caps k with
      | some res => some res
      | none => reRun inp fuel b pos caps k
    | .starG a =>
      match reRun inp fuel a pos caps
          (fun p2 c2 => if p2 = pos then none else reRun inp fuel (.starG a) p2 c2 k) with
      | some res => some res
      | none => k pos caps
    | .starL a =>
      match k pos caps with
      | some res => some res
      | none =>
        reRun inp fuel a pos caps
          (fun p2 c2 => if p2 = pos then none else reRun inp fuel (.starL a) p2 c2 k)
    | .grp n a => reRun inp fuel a pos caps (fun p2 c2 => k p2 ((n, pos, p2) :: c2))
    | .wb =>
      let before := match pos with
        | 0 => false
        | p + 1 => ((inp.get? p).map isWordChar).getD false
      let after := ((inp.get? pos).map isWordChar).getD false
      if before ≠ after then k pos caps else none
    | .eos => if pos = inp.length then k pos caps else none

/-- A successful match: start, end, captured spans. -/
structure RMatch where
  ms : Nat
  me : Nat
  caps : Caps

/-- Fuel used for a given input (bounds backtracking depth generously). -/
def reFuel (inp : List Char) : Nat := 1000 * (inp.length + 2)

/-- Attempt to match `r` at position `s` of `inp`. -/
def reRunAt (r : RE) (inp : List Char) (s : Nat) : Option RMatch :=
  match reRun inp (reFuel inp) r s [] (fun p c => some (p, c)) with
  | some (p, c) => some ⟨s, p, c⟩
  | none => none

/-- Model of `re.search`: leftmost match. -/
def reSearch (r : RE) (inp : List Char) : Option RMatch :=
  (List.range (inp.length + 1)).findSome? (fun s => reRunAt r inp s)

/-- Model of `re.match` as a Boolean (anchored prefix match). -/
def reMatchB (r : RE) (inp : List Char) : Bool :=
  (reRunAt r inp 0).isSome

/-- Span of capture group `n` (most recent wins, as in Python). -/
def groupSpan (m : RMatch) (n : Nat) : Option (Nat × Nat) :=
  (m.caps.find? (fun t => t.1 == n)).map (fun t => t.2)

/-- Text of capture group `n`, extracted from the input. -/
def groupStr (inp : List Char) (m : RMatch) (n : Nat) : Option (List Char) :=
  (groupSpan m n).map (fun se => (inp.drop se.1).take (se.2 - se.1))

/-- `match.group(0)`: the whole matched text. -/
def group0Str (inp : List Char) (m : RMatch) : List Char :=
  (inp.drop m.ms).take (m.me - m.ms)

/-- `match.lastindex` (0 when no group matched). -/
def lastIndex (m : RMatch) : Nat :=
  m.caps.foldl (fun a t => max a t.1) 0

/-! ### Regex construction helpers -/

/-- Sequence a list of regexes. -/
def rseq (l : List RE) : RE := l.foldr RE.seq RE.eps

/-- Ordered alternation of a list of regexes (first alternative first). -/
def ralt : List RE → RE
  | [] => RE.cls (fun _ => false)
  | [r] => r
  | r :: t => RE.alt r (ralt t)

/-- One pattern character, compared case-insensitively (`re.IGNORECASE`). -/
def ciChar (a : Char) : RE :=
  RE.cls (fun c => pyLowerChar c == pyLowerChar a)

/-- A literal string of pattern characters. -/
def lit (s : String) : RE := rseq (s.data.map ciChar)

/-- Character class listing its members (case-insensitive). -/
def chs (s : String) : RE :=
  RE.cls (fun c => s.data.any (fun a => pyLowerChar c == pyLowerChar a))

/-- `\d`. -/
def digitC : RE := RE.cls Char.isDigit

/-- `\s`. -/
def wsC : RE := RE.cls pyIsSpace

/-- `.` (any character but newline). -/
def anyC : RE := RE.cls (fun c => c != '\n')

/-- Greedy `r?`. -/
def copt (r : RE) : RE := RE.alt r RE.eps

/-- Greedy `r+`. -/
def rep1 (r : RE) : RE := RE.seq r (RE.starG r)

/-- Lazy `r+?`. -/
def rep1L (r : RE) : RE := RE.seq r (RE.starL r)

/-- Exact repetition `r{n}`. -/
def repN : Nat → RE → RE
  | 0, _ => RE.eps
  | n + 1, r => RE.seq r (repN n r)

/-- Greedy `r{0,n}`. -/
def upTo : Nat → RE → RE
  | 0, _ => RE.eps
  | n + 1, r => copt (RE.seq r (upTo n r))

/-- Greedy `r{m,n}`. -/
def repRange (m n : Nat) (r : RE) : RE := RE.seq (repN m r) (upTo (n - m) r)

/-! ### CategorizationService (src/services/categorization_service.py) -/

/-- A `\b(...)\b` pattern with the given ordered alternatives (group 1). -/
def wpat (ws : List RE) : RE := RE.seq RE.wb (RE.seq (RE.grp 1 (ralt ws)) RE.wb)

/-- Patterns of the 'Alimentation' entry. -/
def alimPatterns : List RE :=
  [wpat [lit ("carrefour"), lit ("auchan"), lit ("leclerc"),
         RE.seq (lit ("intermarch")) (chs ("ée")), lit ("intermarche"),
         lit ("super u"), lit ("monoprix"), lit ("casino"), lit ("geant"),
         lit ("e.leclerc")],
   wpat [lit ("supermarche"), lit ("supermarché"),
         RE.seq (lit ("hypermarch")) (chs ("ée")), lit ("grande surface")],
   wpat [lit ("h market"), lit ("h&m market"), lit ("market")],
   wpat [lit ("epicerie"), lit ("épicerie"), lit ("epicerie"), lit ("alimentation")]]

/-- Keywords of the 'Alimentation' entry. -/
def alimKeywords : List String :=
  ["carrefour", "auchan", "leclerc", "intermarché", "intermarche", "super u",
   "monoprix", "casino", "geant", "supermarche", "supermarché", "hypermarché",
   "h market", "epicerie", "épicerie", "alimentation", "food", "grocery",
   "auchan bretigny", "auchan brétigny"]

/-- Patterns of the 'Restaurant' entry. -/
def restoPatterns : List RE :=
  [wpat [lit ("cafe"), lit ("café"), lit ("coffee"), lit ("restaurant"),
         lit ("resto"), lit ("brasserie"), lit ("bistrot"), lit ("bistro")],
   wpat [lit ("mcdo"), lit ("mcdonald"), lit ("kfc"), lit ("burger"),
         lit ("pizza"), lit ("pizzeria"), lit ("fast food")],
   wpat [lit ("saveurs"), lit ("saveur"), lit ("cuisine"), lit ("gastronomie")],
   wpat [lit ("deliveroo"), lit ("ubereats"), lit ("just eat"),
         lit ("takeaway"), lit ("livraison")]]

/-- Keywords of the 'Restaurant' entry. -/
def restoKeywords : List String :=
  ["cafe", "café", "restaurant", "resto", "brasserie", "bistrot", "bistro",
   "mcdo", "mcdonald", "kfc", "burger", "pizza", "pizzeria", "fast food",
   "saveurs", "saveur", "deliveroo", "ubereats", "just eat", "takeaway"]

/-- Patterns of the 'Boulangerie' entry. -/
def boulPatterns : List RE :=
  [wpat [lit ("boulangerie"), lit ("boulanger"), lit ("boulang"),
         lit ("patisserie"), lit ("pâtisserie"), lit ("tradition")],
   wpat [lit ("bakery"), lit ("pain"), lit ("baguette")]]

/-- Keywords of the 'Boulangerie' entry. -/
def boulKeywords : List String :=
  ["boulangerie", "boulanger", "boulang", "patisserie", "pâtisserie",
   "tradition", "bakery"]

/-- Patterns of the 'Shopping' entry. -/
def shopPatterns : List RE :=
  [wpat [lit ("barber"), lit ("barbier"), lit ("coiffeur"), lit ("coiffeuse"),
         lit ("salon"), lit ("hairdresser")],
   wpat [lit ("amazon"), lit ("fnac"), lit ("darty"), lit ("ikea"),
         lit ("zara"), lit ("decathlon"), lit ("cultura")],
   wpat [lit ("leroy merlin"), lit ("castorama"), lit ("bricorama"),
         lit ("bricolage"), lit ("brico")],
   wpat [lit ("vêtement"), lit ("vetement"), lit ("habillement"),
         lit ("mode"), lit ("fashion"), lit ("clothing")]]

/-- Keywords of the 'Shopping' entry. -/
def shopKeywords : List String :=
  ["barber", "barbier", "coiffeur", "coiffeuse", "salon", "premium barber",
   "amazon", "fnac", "darty", "ikea", "zara", "decathlon", "cultura",
   "leroy merlin", "castorama", "bricorama", "bricolage", "brico",
   "vêtement", "vetement", "habillement", "mode", "fashion"]

/-- Patterns of the 'Station de service' entry. -/
def statPatterns : List RE :=
  [wpat [rseq [lit ("station"), RE.starG anyC, lit ("service")],
         rseq [lit ("station"), RE.starG anyC, lit ("essence")],
         rseq [lit ("station"), RE.starG anyC, lit ("carburant")]],
   wpat [lit ("relais"),
         rseq [lit ("relais"), RE.starG anyC, lit ("drapeau")],
         rseq [lit ("relais"), RE.starG anyC, lit ("route")]],
   wpat [lit ("total"), lit ("shell"), lit ("bp"), lit ("esso"),
         lit ("mobil"), lit ("avia"), lit ("agip")],
   wpat [lit ("essence"), lit ("carburant"), lit ("gasoil"),
         lit ("gazole"), lit ("diesel")]]

/-- Keywords of the 'Station de service' entry. -/
def statKeywords : List String :=
  ["station service", "station-service", "station essence", "station carburant",
   "relais", "relais drapeau", "relais route", "relais autoroute",
   "total", "shell", "bp", "esso", "mobil", "avia", "agip",
   "essence", "carburant", "gasoil", "gazole", "diesel"]

/-- Patterns of the 'Transport' entry. -/
def transPatterns : List RE :=
  [wpat [lit ("peage"), lit ("péage"), lit ("toll"), lit ("autoroute")],
   wpat [lit ("sncf"), lit ("train"), lit ("metro"), lit ("métro"),
         lit ("bus"), lit ("tram"), lit ("rer")],
   wpat [lit ("taxi"), lit ("uber"), lit ("bolt"), lit ("heetch"),
         lit ("parking"), lit ("park")],
   wpat [lit ("garage"), lit ("réparation"), lit ("reparation"),
         lit ("mecanique"), lit ("mécanique")]]

/-- Keywords of the 'Transport' entry. -/
def transKeywords : List String :=
  ["peage", "péage", "sncf", "train", "metro", "métro", "bus", "taxi",
   "uber", "parking", "park", "garage", "réparation", "reparation"]

/-- Patterns of the 'Logement' entry. -/
def logPatterns : List RE :=
  [wpat [lit ("loyer"), lit ("charges"), lit ("eau"), lit ("électricité"),
         lit ("electricite"), lit ("gaz")],
   wpat [lit ("edf"), lit ("engie"), lit ("enedis"), lit ("grdf"),
         lit ("syndic"), lit ("copropriété")],
   wpat [lit ("hotel"), lit ("hôtel"), lit ("airbnb"), lit ("booking"),
         lit ("logement")]]

/-- Keywords of the 'Logement' entry. -/
def logKeywords : List String :=
  ["loyer", "charges", "eau", "électricité", "electricite", "gaz",
   "edf", "engie", "enedis", "grdf", "syndic", "copropriété",
   "hotel", "hôtel", "airbnb", "booking"]

/-- Patterns of the 'Santé' entry. -/
def santePatterns : List RE :=
  [wpat [lit ("pharmacie"), lit ("pharma"), lit ("médecin"), lit ("medecin"),
         lit ("dentiste"), lit ("opticien")],
   wpat [lit ("hopital"), lit ("hôpital"), lit ("clinique"),
         lit ("mutuelle"), lit ("assurance santé")],
   wpat [lit ("laboratoire"), lit ("analyse"), lit ("medical"), lit ("médical")]]

/-- Keywords of the 'Santé' entry. -/
def santeKeywords : List String :=
  ["pharmacie", "pharma", "médecin", "medecin", "dentiste", "opticien",
   "hopital", "hôpital", "clinique", "mutuelle", "laboratoire", "analyse"]

/-- Patterns of the 'Loisirs' entry. -/
def loisirsPatterns : List RE :=
  [wpat [lit ("cinema"), lit ("cinéma"), lit ("netflix"), lit ("spotify"),
         lit ("disney"), lit ("prime video")],
   wpat [lit ("salle de sport"), lit ("gym"), lit ("fitness"),
         lit ("sport"), lit ("concert"), lit ("spectacle")],
   wpat [lit ("musée"), lit ("musee"), lit ("voyage"), lit ("tourisme")]]

/-- Keywords of the 'Loisirs' entry. -/
def loisirsKeywords : List String :=
  ["cinema", "cinéma", "netflix", "spotify", "disney", "prime video",
   "salle de sport", "gym", "fitness", "sport", "concert", "spectacle",
   "musée", "musee", "voyage", "tourisme"]

/-- Patterns of the 'Abonnements' entry. -/
def abonPatterns : List RE :=
  [wpat [lit ("abonnement"), lit ("netflix"), lit ("spotify"),
         lit ("amazon prime"), lit ("disney")],
   wpat [lit ("youtube premium"), lit ("apple music"), lit ("deezer"),
         lit ("canal+")],
   wpat [lit ("orange"), lit ("sfr"), lit ("bouygues"), lit ("free"),
         lit ("mobile"), lit ("forfait")]]

/-- Keywords of the 'Abonnements' entry. -/
def abonKeywords : List String :=
  ["abonnement", "netflix", "spotify", "amazon prime", "disney",
   "youtube premium", "apple music", "deezer", "canal+", "orange",
   "sfr", "bouygues", "free", "mobile", "forfait"]

/-- Patterns of the 'Banque' entry. -/
def banquePatterns : List RE :=
  [wpat [lit ("frais bancaire"), lit ("agios"), lit ("commission"),
         lit ("assurance"), lit ("banque")],
   wpat [lit ("crédit"), lit ("credit"), lit ("prêt"), lit ("pret"),
         lit ("remboursement")]]

/-- Keywords of the 'Banque' entry. -/
def banqueKeywords : List String :=
  ["frais bancaire", "agios", "commission", "assurance", "banque",
   "crédit", "credit", "prêt", "pret", "remboursement"]

/-- The category dictionary, in insertion order: label, patterns, keywords. -/
def categoriesTable : List (String × List RE × List String) :=
  [("Alimentation", alimPatterns, alimKeywords),
   ("Restaurant", restoPatterns, restoKeywords),
   ("Boulangerie", boulPatterns, boulKeywords),
   ("Shopping", shopPatterns, shopKeywords),
   ("Station de service", statPatterns, statKeywords),
   ("Transport", transPatterns, transKeywords),
   ("Logement", logPatterns, logKeywords),
   ("Santé", santePatterns, santeKeywords),
   ("Loisirs", loisirsPatterns, loisirsKeywords),
   ("Abonnements", abonPatterns, abonKeywords),
   ("Banque", banquePatterns, banqueKeywords)]

/-- The fixed priority sequence used by `categorize`. -/
def priorityOrder : List String :=
  ["Restaurant", "Boulangerie", "Shopping", "Alimentation",
   "Station de service", "Transport", "Logement", "Santé", "Loisirs",
   "Abonnements", "Banque"]

/-- `self.categories[cat].get('patterns', [])` (with the `in` check). -/
def patternsOf (cat : String) : List RE :=
  match categoriesTable.find? (fun e => e.1 == cat) with
  | some e => e.2.1
  | none => []

/-- `self.categories[cat].get('keywords', [])` (with the `in` check). -/
def keywordsOf (cat : String) : List String :=
  match categoriesTable.find? (fun e => e.1 == cat) with
  | some e => e.2.2
  | none => []

/-- Does some regex of the category match the lowered description? -/
def catRegexMatches (dl : List Char) (cat : String) : Bool :=
  (patternsOf cat).any (fun p => (reSearch p dl).isSome)

/-- Does some keyword of the category occur in the lowered description? -/
def catKeywordMatches (dl : List Char) (cat : String) : Bool :=
  (keywordsOf cat).any (fun k => isSubL k.data dl)

/-- The special-case override table of `categorize`. -/
def specialCases : List (String × String) :=
  [("cafe", "Restaurant"), ("café", "Restaurant"), ("saveurs", "Restaurant"),
   ("h market", "Alimentation"), ("tradition", "Boulangerie"),
   ("barber", "Shopping"), ("barbier", "Shopping"),
   ("relais", "Station de service")]

/-- `CategorizationService.categorize`. -/
def categorize (description : String) : String :=
  if description = "" then "Autres"
  else
    let dl := description.data.map pyLowerChar
    match priorityOrder.find? (catRegexMatches dl) with
    | some c => c
    | none =>
      match priorityOrder.find? (catKeywordMatches dl) with
      | some c => c
      | none =>
        match specialCases.find? (fun p => isSubL p.1.data dl) with
        | some p => p.2
        | none => "Autres"

/-- The closed 12-label taxonomy: the 11 named categories plus 'Autres'. -/
def taxonomy : List String :=
  ["Restaurant", "Boulangerie", "Shopping", "Alimentation",
   "Station de service", "Transport", "Logement", "Santé", "Loisirs",
   "Abonnements", "Banque", "Autres"]

/-! ### Shared transaction-candidate types -/

/-- A calendar date standing for `datetime.now()`. -/
structure PyDate where
  year : Nat
  month : Nat
  day : Nat
deriving DecidableEq, Repr

/-- `datetime.now().strftime('%Y-%m-%d')`. -/
def dateStr (d : PyDate) : String :=
  String.mk (zfillL 4 (Nat.repr d.year).data ++ '-' ::
    (zfillL 2 (Nat.repr d.month).data ++ '-' :: zfillL 2 (Nat.repr d.day).data))

/-- A statement-parser transaction candidate. -/
structure Tx where
  description : String
  amount : ℚ
  date : String
deriving DecidableEq, Repr

/-- A notification-parser transaction candidate. -/
structure TxN where
  description : String
  amount : ℚ
  date : String
  category : Option String
  source : String
  ty : String
deriving DecidableEq, Repr

/-! ### NotificationParser (src/services/notification_parser.py) -/

/-- `\d{2}/\d{2}/\d{4}` with its enclosing capture group 3. -/
def notifDateRE : RE :=
  RE.grp 3 (rseq [repN 2 digitC, lit ("/"), repN 2 digitC, lit ("/"), repN 4 digitC])

/-- `([\d,\.]+)` as capture group 1. -/
def notifAmountRE : RE := RE.grp 1 (rep1 (chs ("0123456789,.")))

/-- `[^-]` (any character except a hyphen). -/
def nonDashC : RE := RE.cls (fun c => c != '-')

/-- `[-–]` (hyphen or en dash). -/
def dashC : RE := RE.cls (fun c => c == '-' || c == '–')

/-- First card pattern:
`(?:CARTE|CARTE\s+\*\*\*\*)\s+(?:\d{4}|XXXX)\s*[-–]\s*([\d,\.]+)\s*(?:EUR|€|EUROS?)\s*[-–]\s*([^-]+?)\s*[-–]\s*(\d{2}/\d{2}/\d{4})`. -/
def cartePat1 : RE :=
  rseq [RE.alt (lit ("CARTE")) (rseq [lit ("CARTE"), rep1 wsC, lit ("****")]),
        rep1 wsC,
        RE.alt (repN 4 digitC) (lit ("XXXX")),
        RE.starG wsC, dashC, RE.starG wsC,
        notifAmountRE,
        RE.starG wsC,
        ralt [lit ("EUR"), lit ("€"), RE.seq (lit ("EURO")) (copt (lit ("S")))],
        RE.starG wsC, dashC, RE.starG wsC,
        RE.grp 2 (rep1L nonDashC),
        RE.starG wsC, dashC, RE.starG wsC,
        notifDateRE]

/-- Second card pattern:
`Paiement\s+(?:CARTE|CB)\s+([\d,\.]+)[€EUR\s]+([^-]+?)\s+(?:le\s+)?(\d{2}/\d{2}/\d{4})`. -/
def cartePat2 : RE :=
  rseq [lit ("Paiement"), rep1 wsC,
        RE.alt (lit ("CARTE")) (lit ("CB")), rep1 wsC,
        notifAmountRE,
        rep1 (RE.cls (fun c => pyLowerChar c == '€' || pyLowerChar c == 'e' ||
          pyLowerChar c == 'u' || pyLowerChar c == 'r' || pyIsSpace c)),
        RE.grp 2 (rep1L nonDashC),
        rep1 wsC,
        copt (RE.seq (lit ("le")) (rep1 wsC)),
        notifDateRE]

/-- Transfer pattern:
`Virement\s+(?:reçu|envoyé)\s+(?:de|vers)?\s+([\d,\.]+)\s*(?:EUR|€)\s*[-–]\s*([^-]+?)?\s*[-–]?\s*(\d{2}/\d{2}/\d{4})?`. -/
def virementPat : RE :=
  rseq [lit ("Virement"), rep1 wsC,
        RE.alt (lit ("reçu")) (lit ("envoyé")), rep1 wsC,
        copt (RE.alt (lit ("de")) (lit ("vers"))), rep1 wsC,
        notifAmountRE,
        RE.starG wsC, RE.alt (lit ("EUR")) (lit ("€")),
        RE.starG wsC, dashC, RE.starG wsC,
        copt (RE.grp 2 (rep1L nonDashC)),
        RE.starG wsC, copt dashC, RE.starG wsC,
        copt notifDateRE]

/-- Direct-debit pattern:
`Pr[ée]l[èe]vement\s+([\d,\.]+)\s*(?:EUR|€)\s*[-–]\s*([^-]+?)\s*[-–]\s*(\d{2}/\d{2}/\d{4})`. -/
def prelevementPat : RE :=
  rseq [lit ("Pr"), chs ("ée"), lit ("l"), chs ("èe"), lit ("vement"),
        rep1 wsC,
        notifAmountRE,
        RE.starG wsC, RE.alt (lit ("EUR")) (lit ("€")),
        RE.starG wsC, dashC, RE.starG wsC,
        RE.grp 2 (rep1L nonDashC),
        RE.starG wsC, dashC, RE.starG wsC,
        notifDateRE]

/-- `self.patterns`: the typed pattern groups, in insertion order. -/
def notifPatterns : List (String × List RE) :=
  [("carte", [cartePat1, cartePat2]),
   ("virement", [virementPat]),
   ("prelevement", [prelevementPat])]

/-- `sms_date or datetime.now().strftime('%Y-%m-%d')`. -/
def smsDateOrNow (smsDate : Option String) (today : PyDate) : String :=
  match smsDate with
  | some s => if s = "" then dateStr today else s
  | none => dateStr today

/-- Date resolution for one successful notification match (the body of the
`if match.lastindex >= 3 and match.group(3)` block). -/
def notifDate (up : List Char) (m : RMatch) (smsDate : Option String)
    (today : PyDate) : String :=
  if 3 ≤ lastIndex m then
    match groupStr up m 3 with
    | some ds =>
      if ds ≠ [] then
        if ds.contains '/' then
          match splitCh '/' ds with
          | [d, mo, y] =>
            let y := if y.length = 2 then '2' :: '0' :: y else y
            String.mk (y ++ '-' :: (zfillL 2 mo ++ '-' :: zfillL 2 d))
          | _ => smsDateOrNow smsDate today
        else smsDateOrNow smsDate today
      else smsDateOrNow smsDate today
    | none => smsDateOrNow smsDate today
  else smsDateOrNow smsDate today

/-- Try one notification pattern of type `ty` against the upper-cased text;
`none` models both "no match" and a `ValueError` in `float()`. -/
def tryPattern (up : List Char) (smsDate : Option String) (today : PyDate)
    (ty : String) (p : RE) : Option TxN :=
  match reSearch p up with
  | none => none
  | some m =>
    match (groupStr up m 1).bind
        (fun g => pyFloat (g.map (fun c => if c == ',' then '.' else c))) with
    | none => none
    | some amount =>
      let description :=
        match groupStr up m 2 with
        | some e => if e ≠ [] then String.mk (pyStripL e) else "Transaction"
        | none => "Transaction"
      some { description := description, amount := amount,
             date := notifDate up m smsDate today,
             category := none, source := "sms", ty := ty }

/-- `NotificationParser.parse_sms` (with `datetime.now()` as a parameter). -/
def parse_sms (smsText : String) (smsDate : Option String) (today : PyDate) :
    Option TxN :=
  if smsText = "" then none
  else
    let up := (pyStripL smsText.data).map pyUpperChar
    notifPatterns.findSome?
      (fun e => e.2.findSome? (fun p => tryPattern up smsDate today e.1 p))

/-- `NotificationParser.parse_email`. -/
def parse_email (subject body : String) (emailDate : Option String)
    (today : PyDate) : Option TxN :=
  parse_sms (subject ++ " " ++ body) emailDate today

/-! ### OCRService.parse_transactions (src/services/ocr_service.py) -/

/-- `date_pattern_dot = r'(\d{1,2}\.\d{1,2})'`. -/
def datePatternDot : RE :=
  RE.grp 1 (rseq [repRange 1 2 digitC, lit ("."), repRange 1 2 digitC])

/-- `date_pattern_slash`: one or two digits, a slash or dash, one or two
digits, an optional slash or dash and up to four digits, as capture group 2
(its number inside the combined search pattern). -/
def datePatternSlash : RE :=
  RE.grp 2 (rseq [repRange 1 2 digitC, chs ("/-"), repRange 1 2 digitC,
    copt (chs ("/-")), upTo 4 digitC])

/-- The combined date search `date_pattern_dot + '|' + date_pattern_slash`. -/
def combinedDateRE : RE := RE.alt datePatternDot datePatternSlash

/-- `amount_pattern = r'(\d{1,3}(?:\s?\d{3})*[.,]\d{2})'`. -/
def amountRE : RE :=
  RE.grp 1 (rseq [repRange 1 3 digitC,
    RE.starG (RE.seq (copt wsC) (repN 3 digitC)),
    chs (".,"), repN 2 digitC])

/-- `amount_pattern_simple = r'([+-]?\d+[.,]\d{2})'`. -/
def amountSimpleRE : RE :=
  RE.grp 1 (rseq [copt (chs ("+-")), rep1 digitC, chs (".,"), repN 2 digitC])

/-- `r'(\d{4})'` used for year inference. -/
def fourDigitRE : RE := RE.grp 1 (repN 4 digitC)

/-- `r'^[|\s\-]+$'` (pure separator lines). -/
def sepLineRE : RE :=
  RE.seq (rep1 (RE.cls (fun c => c == '|' || pyIsSpace c || c == '-'))) RE.eos

/-- `r'^\d+\.\d+$'` (a bare decimal number). -/
def numDotNumRE : RE :=
  rseq [rep1 digitC, lit ("."), rep1 digitC, RE.eos]

/-- Year inference: the first 4-digit run of the whole text is used when its
value lies in [2020, 2030], otherwise the current year. -/
def inferYear (text : List Char) (todayYear : Nat) : Nat :=
  match reSearch fourDigitRE text with
  | some m =>
    match groupStr text m 1 with
    | some ys =>
      let y := natOfDigits ys
      if 2020 ≤ y ∧ y ≤ 2030 then y else todayYear
    | none => todayYear
  | none => todayYear

/-- The header-line blacklist check (`any(keyword in line.lower() ...)`). -/
def headerLine (line : List Char) : Bool :=
  ["date opé", "date valeur", "libellé", "débit", "crédit", "total", "solde"].any
    (fun k => isSubL k.data (line.map pyLowerChar))

/-- The free-form description blacklist check. -/
def descBlacklisted (d : List Char) : Bool :=
  ["total", "solde", "montant", "débit", "crédit"].any
    (fun k => isSubL k.data (d.map pyLowerChar))

/-- Scan the first three `|`-fields for dates and a description
(the `for i, part in enumerate(parts[:3])` loop). -/
def tabularScan (parts : List (List Char)) :
    Option (List Char) × Option (List Char) × Option (List Char) :=
  (parts.take 3).foldl
    (fun acc part =>
      let (dOp, dVal, desc) := acc
      if reMatchB datePatternDot part then
        if dOp.isNone then (some part, dVal, desc)
        else if dVal.isNone then (dOp, some part, desc)
        else acc
      else if part ≠ [] ∧ ¬ reMatchB numDotNumRE part then
        if desc.isNone ∧ 3 < part.length then (dOp, dVal, some part) else acc
      else acc)
    (none, none, none)

/-- Scan the remaining `|`-fields for the first two positive amounts
(the `for part in parts[3:]` loop). -/
def tabularAmounts (parts : List (List Char)) : Option ℚ × Option ℚ :=
  (parts.drop 3).foldl
    (fun acc part =>
      let (debit, credit) := acc
      let pc := part.filter (fun c => c != ' ' && c != ' ')
      if pc = [] ∨ pc = ['☐'] ∨ pc = ['☑'] then acc
      else
        match reSearch amountRE pc with
        | none => acc
        | some m =>
          match (groupStr pc m 1).bind (fun g =>
              pyFloat ((g.filter (fun c => c != ' ')).map
                (fun c => if c == ',' then '.' else c))) with
          | none => acc
          | some a =>
            if debit.isNone ∧ 0 < a then (some a, credit)
            else if credit.isNone ∧ 0 < a then (debit, some a)
            else acc)
    (none, none)

/-- One `DD.MM` date formatted with the working year
(`f"{current_year}-{month.zfill(2)}-{day.zfill(2)}"`). -/
def fmtDotDate (year : Nat) (dd mm : List Char) : String :=
  String.mk ((Nat.repr year).data ++ '-' :: (zfillL 2 mm ++ '-' :: zfillL 2 dd))

/-- Resolution of the transaction date in tabular mode
(`date_op or date_val or current_date`, then the `DD.MM` formatting);
`error` models the uncaught `ValueError` of
`day, month = transaction_date.split('.')` on a field with two dots. -/
def tabularDate (year : Nat) (todayS : String) (cur : Option String)
    (txDate : Option (List Char)) : Except String String :=
  match txDate with
  | some td =>
    if reMatchB datePatternDot td then
      match splitCh '.' td with
      | [dd, mm] => .ok (fmtDotDate year dd mm)
      | _ => .error "ValueError: too many values to unpack"
    else .ok (cur.getD todayS)
  | none => .ok (cur.getD todayS)

/-- The tabular-mode attempt on one line; `ok (some tx)` means the line was
consumed (the `continue` after appending), `ok none` means fall through to
free-form parsing. -/
def tabularTx (year : Nat) (todayS : String) (cur : Option String)
    (parts : List (List Char)) : Except String (Option Tx) :=
  let s := tabularScan parts
  let a := tabularAmounts parts
  match s.2.2, (a.1 <|> a.2) with
  | some dsc, some amount =>
    match tabularDate year todayS cur (s.1 <|> s.2.1 <|> (cur.map String.data)) with
    | .error e => .error e
    | .ok formatted =>
      if amountFloor < amount then
        .ok (some { description := String.mk (pyStripL dsc),
                    amount := pyAbs amount, date := formatted })
      else .ok none
  | _, _ => .ok none

/-- Free-form date handling: update the carried-forward date from the
combined date search (`if date_match and date_match.group(1)`). -/
def freeFormCur (year : Nat) (cur : Option String) (line : List Char)
    (dm : Option RMatch) : Except String (Option String) :=
  match dm with
  | none => .ok cur
  | some m =>
    match groupStr line m 1 with
    | none => .ok cur
    | some ds =>
      if ds = [] then .ok cur
      else if ds.contains '.' then
        match splitCh '.' ds with
        | [dd, mm] => .ok (some (fmtDotDate year dd mm))
        | _ => .error "ValueError: too many values to unpack"
      else .ok (some (String.mk ds))

/-- The free-form amount search: the thousands-grouped pattern first,
then the simple pattern. -/
def freeFormAmount (line : List Char) : Option RMatch :=
  match reSearch amountRE line with
  | some m => some m
  | none => reSearch amountSimpleRE line

/-- The free-form description: the line with the matched date and amount
substrings removed, whitespace collapsed, pipes and checkboxes stripped. -/
def freeFormDesc (line : List Char) (dm : Option RMatch) (m : RMatch) :
    List Char :=
  let d1 := match dm with
    | some dmm => pyStripL (removeAll line (group0Str line dmm))
    | none => line
  let d2 := pyStripL (removeAll d1 (group0Str line m))
  let d3 := collapseWs d2
  pyStripL (stripCharL '☑' (stripCharL '☐' (stripCharL '|' d3)))

/-- Free-form amount search and candidate construction for one line. -/
def freeFormEmit (todayS : String) (theCur : Option String) (line : List Char)
    (dm : Option RMatch) : Option Tx :=
  match freeFormAmount line with
  | none => none
  | some m =>
    match (groupStr line m 1).bind (fun g =>
        pyFloat ((g.filter (fun c => c != ' ')).map
          (fun c => if c == ',' then '.' else c))) with
    | none => none
    | some a =>
      let d4 := freeFormDesc line dm m
      if d4 = [] ∨ d4.length < 3 then none
      else if descBlacklisted d4 then none
      else if d4 ≠ [] ∧ amountFloor < pyAbs a then
        some { description := String.mk d4, amount := pyAbs a,
               date := theCur.getD todayS }
      else none

/-- Line-processing state: carried-forward date and accumulated candidates. -/
abbrev PState := Option String × List Tx

/-- The free-form branch for one line. -/
def freeForm (year : Nat) (todayS : String) (st : PState) (line : List Char) :
    Except String PState :=
  let dm := reSearch combinedDateRE line
  match freeFormCur year st.1 line dm with
  | .error e => .error e
  | .ok newCur =>
    match freeFormEmit todayS newCur line dm with
    | none => .ok (newCur, st.2)
    | some tx => .ok (newCur, st.2 ++ [tx])

/-- Process one raw line of the OCR text. -/
def processLine (year : Nat) (todayS : String) (st : PState)
    (rawLine : List Char) : Except String PState :=
  let line := pyStripL rawLine
  if line = [] then .ok st
  else if headerLine line then .ok st
  else if reMatchB sepLineRE line then .ok st
  else
    let parts := (splitCh '|' line).map pyStripL
    if 4 ≤ parts.length then
      match tabularTx year todayS st.1 parts with
      | .error e => .error e
      | .ok (some tx) => .ok (st.1, st.2 ++ [tx])
      | .ok none => freeForm year todayS st line
    else freeForm year todayS st line

/-- Process all lines in order. -/
def parseLines (year : Nat) (todayS : String) :
    PState → List (List Char) → Except String PState
  | st, [] => .ok st
  | st, l :: ls =>
    match processLine year todayS st l with
    | .error e => .error e
    | .ok st' => parseLines year todayS st' ls

/-- The deduplication key: first 50 characters of the description,
the amount and the date. -/
def txKey (t : Tx) : List Char × ℚ × String :=
  (t.description.data.take 50, t.amount, t.date)

/-- Keep the first occurrence of every key (the `seen` set loop). -/
def dedupAux : List (List Char × ℚ × String) → List Tx → List Tx
  | _, [] => []
  | seen, t :: ts =>
    if txKey t ∈ seen then dedupAux seen ts
    else t :: dedupAux (txKey t :: seen) ts

/-- Deduplicate an ordered candidate list. -/
def dedupTx (xs : List Tx) : List Tx := dedupAux [] xs

/-- `OCRService.parse_transactions` before deduplication. -/
def parse_transactions_raw (text : String) (today : PyDate) :
    Except String (List Tx) :=
  let year := inferYear text.data today.year
  match parseLines year (dateStr today) (none, []) (splitCh '\n' text.data) with
  | .error e => .error e
  | .ok st => .ok st.2

/-- `OCRService.parse_transactions` (with `datetime.now()` as a parameter). -/
def parse_transactions (text : String) (today : PyDate) :
    Except String (List Tx) :=
  match parse_transactions_raw text today with
  | .error e => .error e
  | .ok l => .ok (dedupTx l)

/-! ### Helper lemmas -/

theorem mem_of_mem_dropWhile {α : Type} (p : α → Bool) :
    ∀ (l : List α) (c : α), c ∈ l.dropWhile p → c ∈ l := by
  intro l c h
  induction l with
  | nil => exact h
  | cons a t ih =>
    rw [List.dropWhile_cons] at h
    by_cases hp : p a
    · simp only [hp, if_pos] at h
      exact List.mem_cons_of_mem _ (ih h)
    · simp only [hp] at h
      simpa using h

theorem mem_of_mem_pyStripL (c : Char) (l : List Char) :
    c ∈ pyStripL l → c ∈ l := by
  intro h
  unfold pyStripL at h
  rw [List.mem_reverse] at h
  have h2 := mem_of_mem_dropWhile _ _ _ h
  rw [List.mem_reverse] at h2
  exact mem_of_mem_dropWhile _ _ _ h2

theorem find?_first {α : Type} (p : α → Bool) :
    ∀ (l : List α) (c : α), l.find? p = some c →
      ∃ j, ∃ hj : j < l.length, l.get ⟨j, hj⟩ = c ∧ p c = true ∧
        ∀ k (hk : k < l.length), k < j → p (l.get ⟨k, hk⟩) = false := by
  intro l
  induction l with
  | nil => intro c hc; simp [List.find?] at hc
  | cons a t ih =>
    intro c hc
    by_cases hpa : p a
    · rw [List.find?_cons_of_pos _ hpa] at hc
      cases hc
      exact ⟨0, Nat.succ_pos _, rfl, hpa, fun k hk hk0 => absurd hk0 (Nat.not_lt_zero k)⟩
    · rw [List.find?_cons_of_neg _ hpa] at hc
      obtain ⟨j, hj, hget, hpc, hmin⟩ := ih c hc
      refine ⟨j + 1, Nat.succ_lt_succ hj, hget, hpc, ?_⟩
      intro k hk hkj
      cases k with
      | zero => simpa using hpa
      | succ m => exact hmin m (Nat.lt_of_succ_lt_succ hk) (Nat.lt_of_succ_lt_succ hkj)

theorem find?_isSome_of_mem {α : Type} (p : α → Bool) :
    ∀ (l : List α) (a : α), a ∈ l → p a = true → ∃ c, l.find? p = some c := by
  intro l
  induction l with
  | nil => intro a ha; simp at ha
  | cons x t ih =>
    intro a ha hp
    by_cases hpx : p x
    · exact ⟨x, List.find?_cons_of_pos _ hpx⟩
    · rw [List.find?_cons_of_neg _ hpx]
      rcases List.mem_cons.mp ha with he | ht
      · exact absurd (he ▸ hp) (by simpa using hpx)
      · exact ih a ht hp

theorem findSome?_ex {α β : Type} (f : α → Option β) :
    ∀ (l : List α) (b : β), l.findSome? f = some b → ∃ a ∈ l, f a = some b := by
  intro l
  induction l with
  | nil => intro b hb; simp [List.findSome?] at hb
  | cons x t ih =>
    intro b hb
    rw [List.findSome?_cons] at hb
    cases hfx : f x with
    | some v =>
      rw [hfx] at hb
      cases hb
      exact ⟨x, List.mem_cons_self _ _, hfx⟩
    | none =>
      rw [hfx] at hb
      obtain ⟨a, ha, hfa⟩ := ih b hb
      exact ⟨a, List.mem_cons_of_mem _ ha, hfa⟩

theorem categorize_mem (d : String) : categorize d ∈ taxonomy := by
  unfold categorize
  by_cases hd : d = ""
  · rw [if_pos hd]; decide
  · rw [if_neg hd]
    simp only []
    cases h1 : priorityOrder.find? (catRegexMatches (d.data.map pyLowerChar)) with
    | some c =>
      exact (by decide : ∀ x ∈ priorityOrder, x ∈ taxonomy) c (List.mem_of_find?_eq_some h1)
    | none =>
      cases h2 : priorityOrder.find? (catKeywordMatches (d.data.map pyLowerChar)) with
      | some c =>
        exact (by decide : ∀ x ∈ priorityOrder, x ∈ taxonomy) c (List.mem_of_find?_eq_some h2)
      | none =>
        cases h3 : specialCases.find? (fun p => isSubL p.1.data (d.data.map pyLowerChar)) with
        | some q =>
          exact (by decide : ∀ x ∈ specialCases, x.2 ∈ taxonomy) q (List.mem_of_find?_eq_some h3)
        | none => decide

theorem categorize_of_find? (d : String) (c : String) (hd : d ≠ "")
    (h1 : priorityOrder.find? (catRegexMatches (d.data.map pyLowerChar)) = some c) :
    categorize d = c := by
  unfold categorize
  rw [if_neg hd]
  simp only []
  rw [h1]

/-- Claim C1: for every description string, `categorize` returns exactly one
label out of the fixed 12-label taxonomy (the 11 named categories plus the
default 'Autres'); it never fails and never returns an empty label, and
`categorize ""` returns 'Autres'. -/
theorem categorize_returns_fixed_label :
    (∀ d, categorize d ∈ taxonomy) ∧ (∀ d, categorize d ≠ "") ∧
      categorize "" = "Autres" := by
  refine ⟨categorize_mem, ?_, rfl⟩
  intro d h
  have hmem := categorize_mem d
  rw [h] at hmem
  exact (by decide : ("" : String) ∉ taxonomy) hmem

/-- Claim C3: the categorization engine works in two passes over the fixed
priority sequence; whenever the regexes of the category at priority position
`i` match the (lowered) description, `categorize` returns the category at
some priority position `j ≤ i` whose regexes match — so a pass-1 regex match
always wins over any keyword-only match, and of two regex-matching
categories at positions `i < j` the one at position `i` is returned. -/
theorem categorize_regex_priority (d : String) (i : Nat)
    (hi : i < priorityOrder.length)
    (hm : catRegexMatches (d.data.map pyLowerChar) (priorityOrder.get ⟨i, hi⟩) = true) :
    ∃ j, ∃ hj : j < priorityOrder.length, j ≤ i ∧
      catRegexMatches (d.data.map pyLowerChar) (priorityOrder.get ⟨j, hj⟩) = true ∧
      categorize d = priorityOrder.get ⟨j, hj⟩ := by
  have hd : d ≠ "" := by
    intro he
    subst he
    have hall : ∀ x ∈ priorityOrder,
        catRegexMatches (List.map pyLowerChar "".data) x = false := by decide
    have hf := hall _ (List.get_mem priorityOrder i hi)
    rw [hm] at hf
    exact Bool.noConfusion hf
  obtain ⟨c, hc⟩ := find?_isSome_of_mem _ priorityOrder _ (List.get_mem priorityOrder i hi) hm
  obtain ⟨j, hj, hget, hpc, hmin⟩ := find?_first _ priorityOrder c hc
  have hji : j ≤ i := by
    by_contra hlt
    have hfa := hmin i hi (Nat.lt_of_not_le hlt)
    rw [hm] at hfa
    exact Bool.noConfusion hfa
  exact ⟨j, hj, hji, hget ▸ hpc, hget ▸ categorize_of_find? d c hd hc⟩

/-- Witness for C3: the description "pizza" matches a Restaurant regex at
priority position 0, and `categorize` indeed returns 'Restaurant'. -/
theorem categorize_regex_priority_witness : categorize ("pizza") = "Restaurant" := by
  obtain ⟨j, hj, hle, _, heq⟩ := categorize_regex_priority ("pizza") 0 (by decide) (by decide)
  have hj0 : j = 0 := Nat.le_zero.mp hle
  subst hj0
  exact heq

theorem le_pyAbs (a : ℚ) : a ≤ pyAbs a := by
  unfold pyAbs
  split
  · linarith
  · exact le_refl a

theorem tabularTx_floor (y : Nat) (ts : String) (cur : Option String)
    (parts : List (List Char)) (tx : Tx)
    (h : tabularTx y ts cur parts = .ok (some tx)) : amountFloor < tx.amount := by
  unfold tabularTx at h
  dsimp only [] at h
  repeat' split at h
  all_goals cases h
  all_goals refine lt_of_lt_of_le ?_ (le_pyAbs _)
  all_goals assumption

theorem freeFormEmit_floor (ts : String) (cur : Option String)
    (line : List Char) (dm : Option RMatch) (tx : Tx)
    (h : freeFormEmit ts cur line dm = some tx) : amountFloor < tx.amount := by
  unfold freeFormEmit at h
  split at h
  · exact absurd h (by simp)
  next mm hmm =>
    split at h
    · exact absurd h (by simp)
    next av hav =>
      dsimp only [] at h
      generalize hd : freeFormDesc line dm mm = dv at h
      split at h
      · exact absurd h (by simp)
      · split at h
        · exact absurd h (by simp)
        · split at h
          next hcond =>
            cases h
            exact hcond.2
          · exact absurd h (by simp)

theorem freeForm_acc (y : Nat) (ts : String) (st : PState) (line : List Char)
    (st' : PState) (h : freeForm y ts st line = .ok st') :
    st'.2 = st.2 ∨ ∃ tx, st'.2 = st.2 ++ [tx] ∧ amountFloor < tx.amount := by
  unfold freeForm at h
  dsimp only [] at h
  split at h
  · exact absurd h (by simp)
  next newCur hcur =>
    split at h
    · cases h; exact Or.inl rfl
    next tx htx =>
      cases h
      exact Or.inr ⟨tx, rfl, freeFormEmit_floor _ _ _ _ _ htx⟩

theorem processLine_acc (y : Nat) (ts : String) (st : PState)
    (rawLine : List Char) (st' : PState)
    (h : processLine y ts st rawLine = .ok st') :
    st'.2 = st.2 ∨ ∃ tx, st'.2 = st.2 ++ [tx] ∧ amountFloor < tx.amount := by
  unfold processLine at h
  dsimp only [] at h
  split at h
  · cases h; exact Or.inl rfl
  · split at h
    · cases h; exact Or.inl rfl
    · split at h
      · cases h; exact Or.inl rfl
      · split at h
        · split at h
          · exact absurd h (by simp)
          next tx htx =>
            cases h
            exact Or.inr ⟨tx, rfl, tabularTx_floor _ _ _ _ _ htx⟩
          · exact freeForm_acc _ _ _ _ _ h
        · exact freeForm_acc _ _ _ _ _ h

theorem parseLines_floor (y : Nat) (ts : String) :
    ∀ (ls : List (List Char)) (st st' : PState),
      parseLines y ts st ls = .ok st' →
      (∀ c ∈ st.2, amountFloor < c.amount) →
      ∀ c ∈ st'.2, amountFloor < c.amount := by
  intro ls
  induction ls with
  | nil =>
    intro st st' h h0
    unfold parseLines at h
    cases h
    exact h0
  | cons l t ih =>
    intro st st' h h0
    unfold parseLines at h
    split at h
    · exact absurd h (by simp)
    next st1 h1 =>
      refine ih st1 st' h ?_
      rcases processLine_acc _ _ _ _ _ h1 with he | ⟨tx, he, htx⟩
      · rw [he]; exact h0
      · rw [he]
        intro c hc
        rcases List.mem_append.mp hc with hc | hc
        · exact h0 c hc
        · rw [List.mem_singleton.mp hc]; exact htx

theorem mem_of_mem_dedupAux (seen : List (List Char × ℚ × String)) (xs : List Tx) :
    ∀ y ∈ dedupAux seen xs, y ∈ xs := by
  induction xs generalizing seen with
  | nil => intro y hy; exact absurd hy (by simp [dedupAux])
  | cons t ts ih =>
    intro y hy
    unfold dedupAux at hy
    split at hy
    · exact List.mem_cons_of_mem _ (ih seen y hy)
    · rcases List.mem_cons.mp hy with he | hm
      · rw [he]; exact List.mem_cons_self _ _
      · exact List.mem_cons_of_mem _ (ih _ y hm)

/-- Claim C2 counterexample: the notification parser performs no amount-floor
check — `parse_sms` on a card notification with amount `0.00` emits a
candidate whose amount is `0 ≤ 0.01`, so the claim as stated is false. -/
theorem notification_amount_floor_fails :
    parse_sms ("CARTE 1234 - 0.00 EUR - X - 12/01/2024") none ⟨2025, 6, 15⟩ =
      some { description := "X", amount := 0, date := "2024-01-12",
             category := none, source := "sms", ty := "carte" } ∧
    ¬ amountFloor < (0 : ℚ) := by
  exact ⟨by decide, by decide⟩

/-- Claim C2 (amended): every candidate in the output of the statement text
parser `parse_transactions` has amount strictly greater than `0.01`; the
notification parsers (`parse_sms` / `parse_email`) apply no such floor. -/
theorem statement_amount_floor (text : String) (today : PyDate) (l : List Tx)
    (h : parse_transactions text today = .ok l) :
    ∀ c ∈ l, amountFloor < c.amount := by
  unfold parse_transactions at h
  split at h
  · exact absurd h (by simp)
  next raw hraw =>
    cases h
    intro c hc
    have hcr : c ∈ raw := mem_of_mem_dedupAux [] raw c hc
    unfold parse_transactions_raw at hraw
    dsimp only [] at hraw
    split at hraw
    · exact absurd hraw (by simp)
    next st hst =>
      cases hraw
      exact parseLines_floor _ _ _ _ _ hst (by simp) c hcr

/-- Witness for the amended C2: the scenario-A document parses to one
candidate of amount 79, and the floor theorem applies to it. -/
theorem statement_amount_floor_witness : amountFloor < (79 : ℚ) :=
  statement_amount_floor
    ("2024\n10.10 | 10.10 | Virement Vir Inst vers walid lcl | 79,00 | | ☐")
    ⟨2025, 6, 15⟩
    [{ description := "Virement Vir Inst vers walid lcl", amount := 79,
       date := "2024-10-10" }]
    (by rfl)
    { description := "Virement Vir Inst vers walid lcl", amount := 79,
      date := "2024-10-10" }
    (by simp)

/-- Claim C4: for the line
`10.10 | 10.10 | Virement Vir Inst vers walid lcl | 79,00 | | ☐` inside a
document containing the token `2024`, the statement parser emits the
candidate with description `Virement Vir Inst vers walid lcl`, amount 79.00
and date `2024-10-10` (tabular mode, inferred year 2024, first DD.MM field is
the operation date, the first positive amount the debit). -/
theorem tabular_scenario_a :
    parse_transactions
      ("2024\n10.10 | 10.10 | Virement Vir Inst vers walid lcl | 79,00 | | ☐")
      ⟨2025, 6, 15⟩ =
    .ok [{ description := "Virement Vir Inst vers walid lcl", amount := 79,
           date := "2024-10-10" }] := by rfl

/-- Claim C5 (code behavior at the failing input): on
`05.03 Loyer appartement 850,00` with no explicit year, the parser's amount
regex matches the date token `05.03` first (leftmost match), so the code
emits amount 5.03 with description `Loyer appartement 850,00` — not the
claimed amount 850.00 with description `Loyer appartement`.  The date does
use the current year as claimed. -/
theorem freeform_scenario_e_code_behavior :
    parse_transactions ("05.03 Loyer appartement 850,00") ⟨2025, 6, 15⟩ =
    .ok [{ description := "Loyer appartement 850,00", amount := mkRat 503 100,
           date := "2025-03-05" }] := by rfl

theorem tryPattern_ty (up : List Char) (sd : Option String) (t : PyDate)
    (ty : String) (p : RE) (r : TxN)
    (h : tryPattern up sd t ty p = some r) : r.ty = ty := by
  unfold tryPattern at h
  split at h
  · exact absurd h (by simp)
  · split at h
    · exact absurd h (by simp)
    · cases h
      rfl

theorem parse_sms_ty (s : String) (sd : Option String) (t : PyDate) (r : TxN)
    (h : parse_sms s sd t = some r) :
    r.ty = "carte" ∨ r.ty = "virement" ∨ r.ty = "prelevement" := by
  unfold parse_sms at h
  split at h
  · exact absurd h (by simp)
  · dsimp only [] at h
    obtain ⟨e, he, hfe⟩ := findSome?_ex _ _ _ h
    obtain ⟨p, _, hpe⟩ := findSome?_ex _ _ _ hfe
    rw [tryPattern_ty _ _ _ _ _ _ hpe]
    exact (by decide :
      ∀ x ∈ notifPatterns, x.1 = "carte" ∨ x.1 = "virement" ∨ x.1 = "prelevement") e he

/-- Claim C6 counterexample: on the scenario-C input the notification parser
sets the type field to the French key `"carte"`, not `"card"` as claimed. -/
theorem parse_sms_type_not_card :
    (parse_sms ("CARTE 1234 - 15.50 EUR - CARREFOUR - 12/01/2024") none
        ⟨2025, 6, 15⟩).map TxN.ty = some ("carte") ∧
      ("carte" : String) ≠ "card" := ⟨by decide, by decide⟩

/-- Claim C6 (amended): `parse_sms` on
`CARTE 1234 - 15.50 EUR - CARREFOUR - 12/01/2024` returns amount 15.50,
description `CARREFOUR`, date `2024-01-12` and type `"carte"`; in general the
type field of every notification-parser result is one of the pattern-group
keys `{carte, virement, prelevement}` (the code's French names, not
`{card, transfer, debit}`). -/
theorem parse_sms_scenario_and_type_closure :
    parse_sms ("CARTE 1234 - 15.50 EUR - CARREFOUR - 12/01/2024") none
        ⟨2025, 6, 15⟩ =
      some { description := "CARREFOUR", amount := mkRat 1550 100,
             date := "2024-01-12", category := none, source := "sms",
             ty := "carte" } ∧
    ∀ s sd t r, parse_sms s sd t = some r →
      r.ty = "carte" ∨ r.ty = "virement" ∨ r.ty = "prelevement" :=
  ⟨by decide, parse_sms_ty⟩

/-- Witness for the amended C6: a direct-debit notification is parsed and its
type field is one of the three pattern-group keys. -/
theorem parse_sms_type_closure_witness :
    ({ description := "ABONNEMENT", amount := 25, date := "2024-01-12",
       category := none, source := "sms", ty := "prelevement" } : TxN).ty = "carte" ∨
    ({ description := "ABONNEMENT", amount := 25, date := "2024-01-12",
       category := none, source := "sms", ty := "prelevement" } : TxN).ty = "virement" ∨
    ({ description := "ABONNEMENT", amount := 25, date := "2024-01-12",
       category := none, source := "sms", ty := "prelevement" } : TxN).ty = "prelevement" :=
  parse_sms_scenario_and_type_closure.2
    ("Prélèvement 25.00 EUR - ABONNEMENT - 12/01/2024") none ⟨2025, 6, 15⟩
    { description := "ABONNEMENT", amount := 25, date := "2024-01-12",
      category := none, source := "sms", ty := "prelevement" }
    (by rfl)

theorem dedupAux_sublist (xs : List Tx) :
    ∀ seen, (dedupAux seen xs).Sublist xs := by
  induction xs with
  | nil => intro seen; exact List.nil_sublist _
  | cons t ts ih =>
    intro seen
    unfold dedupAux
    split
    · exact (ih seen).cons t
    · exact (ih _).cons₂ t

theorem dedupAux_not_seen (xs : List Tx) :
    ∀ seen, ∀ y ∈ dedupAux seen xs, txKey y ∉ seen := by
  induction xs with
  | nil => intro seen y hy; exact absurd hy (by simp [dedupAux])
  | cons t ts ih =>
    intro seen y hy
    unfold dedupAux at hy
    split at hy
    · exact ih seen y hy
    next hns =>
      rcases List.mem_cons.mp hy with he | hm
      · rw [he]; exact hns
      · have := ih _ y hm
        intro hsy
        exact this (List.mem_cons_of_mem _ hsy)

theorem dedupAux_nodup_keys (xs : List Tx) :
    ∀ seen, ((dedupAux seen xs).map txKey).Nodup := by
  induction xs with
  | nil => intro seen; simp [dedupAux]
  | cons t ts ih =>
    intro seen
    unfold dedupAux
    split
    · exact ih seen
    · rw [List.map_cons, List.nodup_cons]
      refine ⟨?_, ih _⟩
      intro hmem
      obtain ⟨y, hy, hk⟩ := List.mem_map.mp hmem
      exact dedupAux_not_seen ts _ y hy (hk ▸ List.mem_cons_self _ _)

theorem dedupAux_covers (xs : List Tx) :
    ∀ seen, ∀ x ∈ xs,
      txKey x ∈ seen ∨ ∃ y ∈ dedupAux seen xs, txKey y = txKey x := by
  induction xs with
  | nil => intro seen x hx; exact absurd hx (by simp)
  | cons t ts ih =>
    intro seen x hx
    unfold dedupAux
    rcases List.mem_cons.mp hx with he | hm
    · subst he
      split
      next hs => exact Or.inl hs
      next hns =>
        exact Or.inr ⟨x, List.mem_cons_self _ _, rfl⟩
    · split
      next hs =>
        rcases ih seen x hm with hl | ⟨y, hy, hk⟩
        · exact Or.inl hl
        · exact Or.inr ⟨y, hy, hk⟩
      next hns =>
        rcases ih (txKey t :: seen) x hm with hl | ⟨y, hy, hk⟩
        · rcases List.mem_cons.mp hl with he | hs
          · exact Or.inr ⟨t, List.mem_cons_self _ _, he.symm⟩
          · exact Or.inl hs
        · exact Or.inr ⟨y, List.mem_cons_of_mem _ hy, hk⟩

theorem dedupAux_first (xs : List Tx) :
    ∀ seen, ∀ y ∈ dedupAux seen xs,
      xs.find? (fun z => decide (txKey z = txKey y)) = some y := by
  induction xs with
  | nil => intro seen y hy; exact absurd hy (by simp [dedupAux])
  | cons t ts ih =>
    intro seen y hy
    unfold dedupAux at hy
    split at hy
    next hs =>
      have hne : txKey t ≠ txKey y := by
        intro he
        exact dedupAux_not_seen ts seen y hy (he ▸ hs)
      rw [List.find?_cons_of_neg _ (by simpa using hne)]
      exact ih seen y hy
    next hns =>
      rcases List.mem_cons.mp hy with he | hm
      · subst he
        rw [List.find?_cons_of_pos _ (by simp)]
      · have hnmem := dedupAux_not_seen ts _ y hm
        have hne : txKey t ≠ txKey y := by
          intro he
          exact hnmem (he ▸ List.mem_cons_self _ _)
        rw [List.find?_cons_of_neg _ (by simpa using hne)]
        exact ih _ y hm

set_option maxRecDepth 8000 in
/-- Claim C7: the statement parser deduplicates its ordered candidate list by
the key (first 50 characters of the description, amount, date): the output is
a subsequence of the raw candidate list with pairwise-distinct keys covering
every raw key, each kept element is the first raw candidate bearing its key,
and feeding the same logical line twice (with differing trailing whitespace)
yields exactly one candidate. -/
theorem dedup_first_occurrence :
    (∀ t d, parse_transactions t d = (parse_transactions_raw t d).map dedupTx) ∧
    (∀ xs : List Tx, (dedupTx xs).Sublist xs) ∧
    (∀ xs : List Tx, ((dedupTx xs).map txKey).Nodup) ∧
    (∀ xs : List Tx, ∀ x ∈ xs, ∃ y ∈ dedupTx xs, txKey y = txKey x) ∧
    (∀ xs : List Tx, ∀ y ∈ dedupTx xs,
      xs.find? (fun z => decide (txKey z = txKey y)) = some y) ∧
    parse_transactions
      ("10.10 | 10.10 | Virement Vir Inst vers walid lcl | 79,00 | | ☐\n10.10 | 10.10 | Virement Vir Inst vers walid lcl | 79,00 | | ☐   ")
      ⟨2025, 6, 15⟩ =
    .ok [{ description := "Virement Vir Inst vers walid lcl", amount := 79,
           date := "2025-10-10" }] := by
  refine ⟨?_, fun xs => dedupAux_sublist xs [],
    fun xs => dedupAux_nodup_keys xs [],
    fun xs x hx => ?_,
    fun xs => dedupAux_first xs [],
    by rfl⟩
  · intro t d
    unfold parse_transactions
    cases parse_transactions_raw t d with
    | error e => rfl
    | ok l => rfl
  · rcases dedupAux_covers xs [] x hx with hl | hr
    · exact absurd hl (by simp)
    · exact hr

/-- Witness for C7: in a two-element list repeating one candidate, the kept
element for that key is its first occurrence. -/
theorem dedup_first_occurrence_witness :
    [({ description := "Dup", amount := 2, date := "2025-01-01" } : Tx),
     { description := "Dup", amount := 2, date := "2025-01-01" }].find?
      (fun z => decide (txKey z =
        txKey { description := "Dup", amount := 2, date := "2025-01-01" })) =
    some { description := "Dup", amount := 2, date := "2025-01-01" } :=
  dedup_first_occurrence.2.2.2.2.1
    [{ description := "Dup", amount := 2, date := "2025-01-01" },
     { description := "Dup", amount := 2, date := "2025-01-01" }]
    { description := "Dup", amount := 2, date := "2025-01-01" }
    (by decide)

/-- Claim C8 counterexample: this document contains the in-range 4-digit
token `2024`, yet the parser dates the DD.MM transaction with the current
year 2025, because the code inspects only the first 4-digit number (`1999`,
out of range) and then falls back to the current year. -/
theorem year_inference_first_match_only :
    isSubL ("2024").data
      ("annee 1999 puis 2024\n10.10 | 10.10 | Virement Vir Inst vers walid lcl | 79,00 | | ☐").data = true ∧
    parse_transactions
      ("annee 1999 puis 2024\n10.10 | 10.10 | Virement Vir Inst vers walid lcl | 79,00 | | ☐")
      ⟨2025, 6, 15⟩ =
      .ok [{ description := "Virement Vir Inst vers walid lcl", amount := 79,
             date := "2025-10-10" }] ∧
    ("2025-10-10" : String) ≠ "2024-10-10" := ⟨by decide, by rfl, by decide⟩

/-- Claim C8 (amended): year inference is performed once per document and its
result is the working year for all DD.MM dates, but only the first 4-digit
number of the text is examined: if its value lies in [2020, 2030] it is used,
otherwise the current calendar year is used even when a later 4-digit number
is in range. -/
theorem year_inference_behavior :
    (∀ t d, parse_transactions_raw t d =
      (parseLines (inferYear t.data d.year) (dateStr d) (none, [])
        (splitCh '\n' t.data)).map (fun st => st.2)) ∧
    inferYear ("annee 1999 puis 2024").data 2025 = 2025 ∧
    inferYear ("releve 2024").data 2025 = 2024 ∧
    inferYear ("rien ici").data 2025 = 2025 ∧
    parse_transactions
      ("releve 2024\n10.10 | 10.10 | Virement Vir Inst vers walid lcl | 79,00 | | ☐\n11.12 | 11.12 | Paiement Carte Bleue xyz | 45,50 | | ☐")
      ⟨2025, 6, 15⟩ =
      .ok [{ description := "Virement Vir Inst vers walid lcl", amount := 79,
             date := "2024-10-10" },
           { description := "Paiement Carte Bleue xyz", amount := mkRat 4550 100,
             date := "2024-12-11" }] := by
  refine ⟨?_, by decide, by decide, by decide, by rfl⟩
  intro t d
  unfold parse_transactions_raw
  dsimp only []
  cases hp : parseLines (inferYear t.data d.year) (dateStr d) (none, [])
      (splitCh '\n' t.data) with
  | error e => rfl
  | ok st => rfl

theorem freeFormEmit_date (ts : String) (cur : Option String)
    (line : List Char) (dm : Option RMatch) (tx : Tx)
    (h : freeFormEmit ts cur line dm = some tx) : tx.date = cur.getD ts := by
  unfold freeFormEmit at h
  split at h
  · exact absurd h (by simp)
  next mm hmm =>
    split at h
    · exact absurd h (by simp)
    next av hav =>
      dsimp only [] at h
      generalize hd : freeFormDesc line dm mm = dv at h
      split at h
      · exact absurd h (by simp)
      · split at h
        · exact absurd h (by simp)
        · split at h
          · cases h; rfl
          · exact absurd h (by simp)

/-- Claim C9 counterexample: a free-form line whose only date token is of the
slash form `12/01/2024` does not update the carried-forward date — both this
line's candidate and the following date-less line's candidate are emitted
with today's date, not with the slash date, so the claim as stated is
false. -/
theorem slash_date_not_carried :
    parse_transactions ("12/01/2024 Achat boutique 15,00\nCafe du centre 8,50")
      ⟨2025, 6, 15⟩ =
    .ok [{ description := "Achat boutique", amount := 15, date := "2025-06-15" },
         { description := "Cafe du centre", amount := mkRat 850 100,
           date := "2025-06-15" }] := by rfl

/-- Claim C9 (amended): in free-form mode only `DD.MM`-form date tokens are
remembered: when the combined date search captures group 1 (the dot form),
the normalized date becomes the carried-forward date; when the match is of
the slash form (group 1 absent) or there is no date token, the carried date
is unchanged; every free-form candidate emitted from a line without a date
token carries the remembered date (falling back to today), as the concrete
two-line document shows. -/
theorem carried_forward_dot_dates :
    (∀ (y : Nat) (ts : String) (st : PState) (line : List Char) (st' : PState),
      freeForm y ts st line = .ok st' →
      reSearch combinedDateRE line = none → st'.1 = st.1) ∧
    (∀ (y : Nat) (ts : String) (st : PState) (line : List Char) (st' : PState),
      freeForm y ts st line = .ok st' →
      reSearch combinedDateRE line = none →
      st'.2 = st.2 ∨ ∃ tx, st'.2 = st.2 ++ [tx] ∧ tx.date = st.1.getD ts) ∧
    (∀ (y : Nat) (ts : String) (st : PState) (line : List Char) (st' : PState)
      (m : RMatch) (ds dd mm : List Char),
      freeForm y ts st line = .ok st' →
      reSearch combinedDateRE line = some m → groupStr line m 1 = some ds →
      ds ≠ [] → ds.contains '.' = true → splitCh '.' ds = [dd, mm] →
      st'.1 = some (fmtDotDate y dd mm)) ∧
    (∀ (y : Nat) (ts : String) (st : PState) (line : List Char) (st' : PState)
      (m : RMatch),
      freeForm y ts st line = .ok st' →
      reSearch combinedDateRE line = some m → groupStr line m 1 = none →
      st'.1 = st.1) ∧
    parse_transactions ("05.03 Loyer maison 850,00\nAutre achat 12,00")
      ⟨2025, 6, 15⟩ =
    .ok [{ description := "Loyer maison 850,00", amount := mkRat 503 100,
           date := "2025-03-05" },
         { description := "Autre achat", amount := 12,
           date := "2025-03-05" }] := by
  refine ⟨?_, ?_, ?_, ?_, by rfl⟩
  · intro y ts st line st' h hdm
    unfold freeForm at h
    dsimp only [] at h
    rw [hdm] at h
    dsimp only [freeFormCur] at h
    split at h
    · cases h; rfl
    · cases h; rfl
  · intro y ts st line st' h hdm
    unfold freeForm at h
    dsimp only [] at h
    rw [hdm] at h
    dsimp only [freeFormCur] at h
    split at h
    · cases h; exact Or.inl rfl
    next tx htx =>
      cases h
      exact Or.inr ⟨tx, rfl, freeFormEmit_date _ _ _ _ _ htx⟩
  · intro y ts st line st' m ds dd mm h hdm hg hne hdot hsplit
    unfold freeForm at h
    dsimp only [] at h
    rw [hdm] at h
    unfold freeFormCur at h
    dsimp only [] at h
    rw [hg] at h
    dsimp only [] at h
    rw [if_neg hne, if_pos hdot, hsplit] at h
    dsimp only [] at h
    split at h
    · cases h; rfl
    · cases h; rfl
  · intro y ts st line st' m h hdm hg
    unfold freeForm at h
    dsimp only [] at h
    rw [hdm] at h
    unfold freeFormCur at h
    dsimp only [] at h
    rw [hg] at h
    dsimp only [] at h
    split at h
    · cases h; rfl
    · cases h; rfl

/-- Witness for the amended C9: a date-less line leaves the carried-forward
date `2025-03-05` unchanged while emitting its candidate. -/
theorem carried_forward_dot_dates_witness :
    ((some ("2025-03-05") : Option String),
      [({ description := "Autre chose", amount := 12,
          date := "2025-03-05" } : Tx)]).1 =
    ((some ("2025-03-05") : Option String), ([] : List Tx)).1 :=
  carried_forward_dot_dates.1 2025 ("2025-06-15")
    ((some ("2025-03-05") : Option String), ([] : List Tx))
    ("Autre chose 12,00").data
    ((some ("2025-03-05") : Option String),
      [({ description := "Autre chose", amount := 12,
          date := "2025-03-05" } : Tx)])
    (by rfl) (by rfl)

theorem upperChar_not_lower (c : Char) : isLowerModeled (pyUpperChar c) = false := by
  unfold pyUpperChar
  cases h : caseTable.find? (fun p => p.1 == c) with
  | some p =>
    exact (by decide : ∀ q ∈ caseTable, isLowerModeled q.2 = false) p
      (List.mem_of_find?_eq_some h)
  | none =>
    have hall := List.find?_eq_none.mp h
    unfold isLowerModeled
    rw [List.any_eq_false]
    intro q hq
    exact hall q hq

theorem mem_of_groupStr (inp : List Char) (m : RMatch) (n : Nat) (e : List Char)
    (h : groupStr inp m n = some e) : ∀ c ∈ e, c ∈ inp := by
  unfold groupStr at h
  obtain ⟨se, _, he⟩ := Option.map_eq_some'.mp h
  intro c hc
  rw [← he] at hc
  exact List.drop_subset _ _ (List.take_subset _ _ hc)

theorem tryPattern_desc (up : List Char) (sd : Option String) (t : PyDate)
    (ty : String) (p : RE) (r : TxN) (h : tryPattern up sd t ty p = some r) :
    r.description = "Transaction" ∨ ∀ c ∈ r.description.data, c ∈ up := by
  unfold tryPattern at h
  split at h
  · exact absurd h (by simp)
  next m hm =>
    split at h
    · exact absurd h (by simp)
    · cases h
      dsimp only []
      cases hg : groupStr up m 2 with
      | none => exact Or.inl rfl
      | some e =>
        dsimp only []
        by_cases he : e = []
        · rw [if_neg (by simp [he])]
          exact Or.inl rfl
        · rw [if_pos he]
          refine Or.inr ?_
          intro c hc
          exact mem_of_groupStr up m 2 e hg c (mem_of_mem_pyStripL c e hc)

/-- Claim C10 counterexample: `parse_sms` can return the placeholder
description `"Transaction"` (a transfer notification whose description group
does not participate in the match), and that placeholder contains lowercase
letters — so the claim that no returned description contains lowercase
letters is false. -/
theorem parse_sms_description_lowercase_placeholder :
    parse_sms ("Virement reçu de 100.00 EUR -") none ⟨2025, 6, 15⟩ =
      some { description := "Transaction", amount := 100, date := "2025-06-15",
             category := none, source := "sms", ty := "virement" } ∧
    ("Transaction" : String).data.any isLowerModeled = true :=
  ⟨by decide, by decide⟩

/-- Claim C10 (amended): `parse_sms` upper-cases the whole input before
matching, so every returned description is either the literal placeholder
`"Transaction"` (used when the description group is absent or empty) or a
trimmed capture from the upper-cased text and therefore contains no lowercase
letters. -/
theorem parse_sms_description_cases (s : String) (sd : Option String)
    (t : PyDate) (r : TxN) (h : parse_sms s sd t = some r) :
    r.description = "Transaction" ∨
      r.description.data.any isLowerModeled = false := by
  unfold parse_sms at h
  split at h
  · exact absurd h (by simp)
  · dsimp only [] at h
    obtain ⟨e, _, hfe⟩ := findSome?_ex _ _ _ h
    obtain ⟨p, _, hpe⟩ := findSome?_ex _ _ _ hfe
    rcases tryPattern_desc _ _ _ _ _ _ hpe with hl | hr
    · exact Or.inl hl
    · refine Or.inr ?_
      rw [List.any_eq_false]
      intro c hc
      obtain ⟨x, _, hx⟩ := List.mem_map.mp (hr c hc)
      rw [← hx]
      simp [upperChar_not_lower]

/-- Witness for the amended C10: the scenario-C call returns description
`CARREFOUR`, which is not the placeholder and contains no lowercase
letters. -/
theorem parse_sms_description_cases_witness :
    (({ description := "CARREFOUR", amount := mkRat 1550 100,
        date := "2024-01-12", category := none, source := "sms",
        ty := "carte" } : TxN).description = "Transaction") ∨
    ({ description := "CARREFOUR", amount := mkRat 1550 100,
       date := "2024-01-12", category := none, source := "sms",
       ty := "carte" } : TxN).description.data.any isLowerModeled = false :=
  parse_sms_description_cases
    ("CARTE 1234 - 15.50 EUR - CARREFOUR - 12/01/2024") none ⟨2025, 6, 15⟩
    { description := "CARREFOUR", amount := mkRat 1550 100,
      date := "2024-01-12", category := none, source := "sms", ty := "carte" }
    (by rfl)
